import Mathlib

/-!
Verification of the layout-reconstruction and emission logic of the
`python_converter` document converter (`converter.py`, `converter_lite.py`).

The relevant source fragments are shallowly embedded below: pure string and
geometry helpers first, then the per-conversion pipelines (PDF→HTML page
reconstruction, Excel→PDF page sizing and table styling, PDF→Excel workbook
construction), and finally the theorems settling the specification claims.

Numeric page coordinates and font sizes are modelled as rationals; PDF cell
values (which may be `None` in the source) are modelled as `Option String`.
-/

namespace UbPdf

/-- Python whitespace characters stripped by `str.strip()`. -/
def pyWs (c : Char) : Bool :=
  c = ' ' ∨ c = '\t' ∨ c = '\n' ∨ c = '\r' ∨ c = Char.ofNat 11 ∨ c = Char.ofNat 12

/-- Model of Python `str.strip()`: drop whitespace from both ends. -/
def pyStrip (s : String) : String :=
  ⟨((s.toList.dropWhile pyWs).reverse.dropWhile pyWs).reverse⟩

/-- Model of Python `str.lstrip(chars)`: drop the given characters from the left. -/
def pyLstrip (chars : List Char) (s : String) : String :=
  ⟨s.toList.dropWhile (fun c => chars.contains c)⟩

/-- ASCII lowercase folding of one character (the case relevant to font
names), as performed by Python `str.lower()`. -/
def lowerChar (c : Char) : Char :=
  if 65 ≤ c.toNat ∧ c.toNat ≤ 90 then Char.ofNat (c.toNat + 32) else c

/-- Model of Python `str.lower()` on ASCII strings. -/
def pyLower (s : String) : String :=
  ⟨s.toList.map lowerChar⟩

/-- Does the character list `l` start with `pat`? -/
def listStarts : List Char → List Char → Bool
  | _, [] => true
  | [], _ :: _ => false
  | a :: as, b :: bs => a = b && listStarts as bs

/-- Does the character list `l` contain `pat` as a contiguous sublist?
Models the Python `pat in s` substring test. -/
def listFind : List Char → List Char → Bool
  | [], pat => pat.isEmpty
  | a :: as, pat => listStarts (a :: as) pat || listFind as pat

/-- Model of the Python substring test `pat in s`. -/
def strContains (s pat : String) : Bool :=
  listFind s.toList pat.toList

/-- Model of `html.escape` (applied to one character): `&`, `<`, `>`, `"` and
the apostrophe are replaced by entities, everything else is kept. -/
def escChar (c : Char) : String :=
  if c = '&' then "&amp;"
  else if c = '<' then "&lt;"
  else if c = '>' then "&gt;"
  else if c = '"' then "&quot;"
  else if c = Char.ofNat 39 then "&#x27;"
  else String.singleton c

/-- Model of Python `html.escape(s)` (with default `quote=True`). -/
def htmlEscape (s : String) : String :=
  String.join (s.toList.map escChar)

/-- A bounding box `(x0, y0, x1, y1)` in source coordinate space
(top-left origin, y increasing downward). -/
structure Rect where
  x0 : ℚ
  y0 : ℚ
  x1 : ℚ
  y1 : ℚ
deriving DecidableEq, Repr

/-- The overlap test of `pdf_to_html` (converter.py lines 1956–1957): a text
block's bbox overlaps a table's bbox when the open intervals intersect on
both axes. -/
def overlapsBB (b t : Rect) : Bool :=
  b.x0 < t.x1 && b.x1 > t.x0 && b.y0 < t.y1 && b.y1 > t.y0

/-- An extracted table candidate: bounding box plus the extracted cell grid
(`pdfplumber`'s `extract()` output; cells may be `None`). -/
structure TableCand where
  bbox : Rect
  data : List (List (Option String))
deriving DecidableEq, Repr

/-- Is a cell counted as filled? Source: `if cell and str(cell).strip()`. -/
def cellFilled : Option String → Bool
  | none => false
  | some s => !(s = "") && !(pyStrip s = "")

/-- Total number of cells of a candidate grid. -/
def totalCount (data : List (List (Option String))) : ℕ :=
  (data.map List.length).sum

/-- Number of filled cells of a candidate grid. -/
def filledCount (data : List (List (Option String))) : ℕ :=
  (data.map (fun row => (row.filter cellFilled).length)).sum

/-- Table validation of `pdf_to_html` (converter.py lines 1880–1894): a
candidate is accepted when it has at least 2 rows, at least 4 cells, and at
least 30% of its cells are filled. -/
def acceptTable (t : TableCand) : Bool :=
  !(t.data.length < 2) &&
  !(totalCount t.data < 4 ||
    (filledCount t.data : ℚ) / (totalCount t.data : ℚ) < 3 / 10)

/-- A raw PDF text span as returned by the `"dict"` text extraction:
text, font name, font size and packed RGB color. -/
structure Span where
  text : String
  font : String
  size : ℚ
  color : ℤ
deriving DecidableEq, Repr

/-- Heading tag selection of `pdf_to_html` (converter.py lines 1980–1987). -/
def tagFor (size : ℚ) : String :=
  if size > 20 then "h1"
  else if size > 16 then "h2"
  else if size > 14 then "h3"
  else "span"

/-- The inline style attribute built from span size and color
(converter.py lines 1990–2001).  The numeric rendering of non-default
sizes/colors is abstracted by `toString`; every theorem below only
evaluates it at the defaults, where it yields the empty string as in the
source. -/
def styleAttr (size : ℚ) (color : ℤ) : String :=
  let parts : List String :=
    (if size ≠ 12 then ["font-size: " ++ toString size ++ "pt"] else []) ++
    (if color ≠ 0 then ["color: rgb(" ++ toString color ++ ")"] else [])
  if parts.isEmpty then "" else " style=\"" ++ String.intercalate "; " parts ++ "\""

/-- The bullet glyph set of converter.py line 2013. -/
def bulletGlyphs : List Char := ['•', '-', '*', '●', '○', '▪', '◆']

/-- `text.startswith(('•','-','*','●','○','▪','◆'))` for stripped text. -/
def bulletStart (s : String) : Bool :=
  match s.toList with
  | [] => false
  | c :: _ => bulletGlyphs.contains c

/-- The characters removed by `lstrip('•-*●○▪◆ ')` (converter.py line 2014). -/
def bulletLstripChars : List Char := ['•', '-', '*', '●', '○', '▪', '◆', ' ']

/-- The numbered-list test of converter.py line 2016:
`len(text) > 0 and text[0].isdigit() and '.' in text[:5]`. -/
def numberedStart (s : String) : Bool :=
  match s.toList with
  | [] => false
  | c :: _ => c.isDigit && (s.toList.take 5).contains '.'

/-- `'.'.join(text.split('.')[1:]).strip()` (converter.py line 2018). -/
def numberedClean (s : String) : String :=
  pyStrip (String.intercalate "." ((s.splitOn ".").drop 1))

/-- Bold/italic wrapping of a span's escaped text (converter.py lines
2007–2010); `font` is the already-lowercased font name. -/
def applyFormatting (escaped font : String) : String :=
  let t1 := if strContains font "bold" then "<strong>" ++ escaped ++ "</strong>" else escaped
  if strContains font "italic" || strContains font "oblique"
  then "<em>" ++ t1 ++ "</em>" else t1

/-- The per-line span loop of `pdf_to_html` (converter.py lines 1967–2025),
with the accumulated `line_html` threaded as `acc`.  A list indicator
terminates the loop (`break`) and replaces the accumulator; heading spans
overwrite it; plain spans append with a trailing space. -/
def processSpans (acc : String) : List Span → String
  | [] => acc
  | sp :: rest =>
    let text := pyStrip sp.text
    if text = "" then processSpans acc rest
    else
      let font := pyLower sp.font
      let tag := tagFor sp.size
      let attr := styleAttr sp.size sp.color
      let escaped := applyFormatting (htmlEscape text) font
      if bulletStart text then
        "<li>" ++ pyLstrip bulletLstripChars escaped ++ "</li>"
      else if numberedStart text then
        "<li>" ++ htmlEscape (numberedClean text) ++ "</li>"
      else if tag = "span" then
        processSpans (acc ++ "<" ++ tag ++ attr ++ ">" ++ escaped ++ "</" ++ tag ++ "> ") rest
      else
        processSpans ("<" ++ tag ++ attr ++ ">" ++ escaped ++ "</" ++ tag ++ ">") rest

/-- One reconstructed line's HTML (the body of the `for line` loop). -/
def processLine (spans : List Span) : String :=
  processSpans "" spans

/-- Occurrences of `pat` in a character list (all positions; the patterns
counted below cannot overlap themselves, so this matches Python
`str.count`). -/
def listCountOcc : List Char → List Char → ℕ
  | [], pat => if pat.isEmpty then 1 else 0
  | a :: as, pat => (if listStarts (a :: as) pat then 1 else 0) + listCountOcc as pat

/-- First index of `pat` in a character list (its length when absent; only
used where the pattern occurs, as in the source). -/
def listIdxOf : List Char → List Char → ℕ
  | [], _ => 0
  | a :: as, pat => if listStarts (a :: as) pat then 0 else 1 + listIdxOf as pat

/-- Python slice `s[i:j]` for `0 ≤ i ≤ j`. -/
def pySlice (s : String) (i j : ℕ) : String :=
  ⟨(s.toList.drop i).take (j - i)⟩

/-- The free-text wrapping of converter.py lines 2090–2104: list items are
wrapped in `<ol>` when a block holds several of them and the first one shows
a digit in its first ten characters, else in `<ul>`; heading lines pass
through; everything else becomes a `<p>`. -/
def wrapTextHtml (th : String) : String :=
  if strContains th "<li>" then
    if listCountOcc th.toList "<li>".toList > 1 then
      let firstLi := pySlice th (listIdxOf th.toList "<li>".toList)
        (listIdxOf th.toList "</li>".toList)
      if (firstLi.toList.take 10).any Char.isDigit then
        "<ol>\n" ++ th ++ "</ol>\n"
      else "<ul>\n" ++ th ++ "</ul>\n"
    else "<ul>\n" ++ th ++ "</ul>\n"
  else if strContains th "<h" then th
  else "<p>" ++ pyStrip th ++ "</p>\n"

/-- A block's accumulated HTML (converter.py lines 1966–2028): one processed
line per source line, each followed by a newline. -/
def blockHtml (lines : List (List Span)) : String :=
  String.join ((lines.map processLine).filter (fun h => !(h = ""))
    |>.map (fun h => h ++ "\n"))

/-- A free-text block candidate: its bounding box and its rendered HTML. -/
structure TextBlock where
  bbox : Rect
  html : String
deriving DecidableEq, Repr

/-- An extracted image with its bounding box and output path. -/
structure ImageEl where
  bbox : Rect
  path : String
deriving DecidableEq, Repr

/-- The kind tag of a merged page element (`'text' | 'table' | 'image'`). -/
inductive CType where
  | text
  | table
  | image
deriving DecidableEq, Repr

/-- One entry of `all_content`: kind, `y_position` sort key, and HTML. -/
structure Content where
  ctype : CType
  y : ℚ
  html : String
deriving DecidableEq, Repr

/-- Table cell text: `str(cell).strip() if cell else ''`. -/
def cellText : Option String → String
  | none => ""
  | some s => if s = "" then "" else pyStrip s

/-- The table HTML of converter.py lines 2050–2066 (header row as `<th>`,
remaining rows as `<td>`, cell text escaped). -/
def tableHtml (data : List (List (Option String))) : String :=
  let header := String.join ((data.headD []).map
    (fun c => "<th>" ++ htmlEscape (cellText c) ++ "</th>\n"))
  let body := String.join ((data.drop 1).map (fun row =>
    "<tr>\n" ++ String.join (row.map
      (fun c => "<td>" ++ htmlEscape (cellText c) ++ "</td>\n")) ++ "</tr>\n"))
  "<table>\n<thead>\n<tr>\n" ++ header ++ "</tr>\n</thead>\n<tbody>\n" ++
    body ++ "</tbody>\n</table>\n"

/-- Insert `x` into `l` keeping ascending `y` order; an existing element with
key `≤ x.y` stays in front of `x`, so repeated insertion from the left is
exactly Python's stable ascending `list.sort(key=...)`. -/
def insertAsc : List Content → Content → List Content
  | [], x => [x]
  | y :: ys, x => if y.y ≤ x.y then y :: insertAsc ys x else x :: y :: ys

/-- Stable ascending sort by `y_position` (converter.py line 2084). -/
def pySortByY (l : List Content) : List Content :=
  l.foldl insertAsc []

/-- The table-suppression filter of converter.py lines 1951–1962: keep a
text block only if it overlaps no accepted table. -/
def freeTextBlocks (blocks : List TextBlock) (tables : List TableCand) :
    List TextBlock :=
  blocks.filter (fun b => !(tables.any (fun t => overlapsBB b.bbox t.bbox)))

/-- Lift a kept text block into `all_content`. -/
def textContent (b : TextBlock) : Content :=
  ⟨CType.text, b.bbox.y0, b.html⟩

/-- Lift an accepted table into `all_content` (its `y_position` is the bbox
top, converter.py line 1899). -/
def tableContent (t : TableCand) : Content :=
  ⟨CType.table, t.bbox.y0, tableHtml t.data⟩

/-- Lift an image into `all_content`. -/
def imageContent (i : ImageEl) : Content :=
  ⟨CType.image, i.bbox.y0, "<img src=\"" ++ i.path ++ "\">"⟩

/-- The per-page pipeline of `pdf_to_html` (converter.py steps 1–4): accept
table candidates, suppress text blocks overlapping an accepted table, merge
text blocks (first), tables, then images into `all_content`, and stably sort
by `y_position`. -/
def reconstructPage (blocks : List TextBlock) (rawTables : List TableCand)
    (images : List ImageEl) : List Content :=
  let tables := rawTables.filter acceptTable
  let texts := freeTextBlocks blocks tables
  pySortByY (texts.map textContent ++ tables.map tableContent ++
    images.map imageContent)

/-! ### converter_lite.py: `pdf_to_html` character styling (lines 459–473) -/

/-- The style classes attached to one character in converter_lite.py's
`pdf_to_html` (lines 464–473): `bold` when the lowercased font name contains
"bold" or the size exceeds 14, `italic` for "italic"/"oblique" fonts,
`large`/`xlarge` from the size bands. -/
def liteStyleClasses (fontname : String) (size : ℚ) : List String :=
  let font := pyLower fontname
  (if strContains font "bold" || size > 14 then ["bold"] else []) ++
  (if strContains font "italic" || strContains font "oblique" then ["italic"] else []) ++
  (if size > 14 ∧ size ≤ 16 then ["large"]
   else if size > 16 then ["xlarge"] else [])

/-- converter_lite.py lines 452–453: a line is a heading when the average
character size exceeds 16. -/
def liteIsHeading (sizes : List ℚ) : Bool :=
  sizes.sum / (sizes.length : ℚ) > 16

/-! ### Page size and orientation selection -/

/-- The paper tiers referenced by the emitters. -/
inductive Paper where
  | letter
  | a3
deriving DecidableEq, Repr

/-- Paper dimensions in points, portrait `(width, height)`; A3's exact
floating dimensions are rounded to whole points, which the size comparisons
below do not depend on. -/
def paperDims : Paper → ℚ × ℚ
  | Paper.letter => (612, 792)
  | Paper.a3 => (842, 1191)

/-- A selected page setup: paper tier plus orientation flag. -/
structure PageSel where
  paper : Paper
  isLandscape : Bool
deriving DecidableEq, Repr

/-- Rendered page `(width, height)` of a selection (reportlab `landscape`
swaps the portrait dimensions). -/
def pageWH (s : PageSel) : ℚ × ℚ :=
  let d := paperDims s.paper
  if s.isLandscape then (d.2, d.1) else d

/-- Page-size choice of converter.py `excel_to_pdf` (lines 587–593): A3
landscape for very wide sheets (more than 15 columns or content width over
200), letter landscape for wide sheets (more than 10 columns or width over
120), letter portrait otherwise. -/
def excelPagesize (maxCols : ℕ) (maxContentWidth : ℚ) : PageSel :=
  if maxCols > 15 ∨ maxContentWidth > 200 then ⟨Paper.a3, true⟩
  else if maxCols > 10 ∨ maxContentWidth > 120 then ⟨Paper.letter, true⟩
  else ⟨Paper.letter, false⟩

/-- Page-size choice of converter_lite.py `excel_to_pdf` (line 154):
landscape letter when the active sheet has more than 8 columns. -/
def liteExcelPagesize (maxColumn : ℕ) : PageSel :=
  if maxColumn > 8 then ⟨Paper.letter, true⟩ else ⟨Paper.letter, false⟩

/-- Page-size choice of converter.py `html_to_pdf` (lines 1108–1113):
landscape letter when some parsed table's first row has more than 8 cells. -/
def htmlPagesize (tableWidths : List ℕ) : PageSel :=
  if tableWidths.any (fun w => w > 8) then ⟨Paper.letter, true⟩
  else ⟨Paper.letter, false⟩

/-! ### Row caps -/

/-- The row-collection loop of converter_lite.py `excel_to_pdf` (lines
166–169): rows are appended one by one and the loop stops once 100 rows
have been collected. -/
def liteLimitRows {α : Type} (acc : List α) : List α → List α
  | [] => acc.reverse
  | r :: rs =>
    if (r :: acc).length ≥ 100 then (r :: acc).reverse
    else liteLimitRows (r :: acc) rs

/-- Rows emitted per sheet by converter_lite.py `excel_to_pdf`. -/
def liteRows {α : Type} (rows : List α) : List α :=
  liteLimitRows [] rows

/-- Number of rows iterated by converter.py `excel_to_pdf` (lines 640–641):
`iter_rows(min_row=min_row, max_row=min(max_row, min_row + 500))`, both ends
inclusive. -/
def excelRowWindow (minRow maxRow : ℕ) : ℕ :=
  min maxRow (minRow + 500) - minRow + 1

/-! ### converter.py `excel_to_pdf` table styling (lines 744–794) -/

/-- A ReportLab color as used by the table styling code. -/
inductive RLColor where
  | hex (s : String)
  | white
  | whitesmoke
deriving DecidableEq, Repr

/-- Per-cell styling extracted from the spreadsheet: optional background
color and bold flag (converter.py lines 703–712). -/
structure CellStyle where
  bg : Option RLColor
  bold : Bool
deriving DecidableEq, Repr

/-- `rgb_to_color` (converter.py lines 543–553): `None`, pure white
`FFFFFFFF` and `00000000` map to no color; an 8-digit ARGB value loses its
alpha digits.  (The `except` branch for unparsable values is not modelled;
all inputs considered here are well-formed.) -/
def rgbToColor : Option String → Option RLColor
  | none => none
  | some v =>
    if v = "FFFFFFFF" ∨ v = "00000000" then none
    else some (RLColor.hex (if v.length = 8 then v.drop 2 else v))

/-- One emitted `TableStyle` command; only the background/text-color
commands matter for the claims. -/
inductive Cmd where
  | bgHeader (c : RLColor)
  | textColorHeader (c : RLColor)
  | fontHeader
  | bgCell (col row : ℕ) (c : RLColor)
  | bgRow (row : ℕ) (c : RLColor)
deriving DecidableEq, Repr

/-- Header styling (converter.py lines 756–777): applied when the first row
has a bold cell or the table has more than one row; the background is the
first explicit cell background of row 0, falling back to the fixed accent
`#2C3E50`. -/
def headerCmds (cellStyles : List (List CellStyle)) : List Cmd :=
  let firstRowBold := (cellStyles.headD []).any (fun s => s.bold)
  if firstRowBold ∨ cellStyles.length > 1 then
    let headerBg :=
      match (cellStyles.headD []).findSome? (fun s => s.bg) with
      | some c => c
      | none => RLColor.hex "2C3E50"
    [Cmd.bgHeader headerBg, Cmd.textColorHeader RLColor.whitesmoke, Cmd.fontHeader]
  else []

/-- Cell-specific backgrounds (converter.py lines 779–785): every non-header
cell with an explicit background gets its own command. -/
def cellBgCmds (cellStyles : List (List CellStyle)) : List Cmd :=
  (cellStyles.enum.map (fun p =>
    (p.2.enum.filterMap (fun q =>
      match q.2.bg with
      | some c => if p.1 > 0 then some (Cmd.bgCell q.1 p.1 c) else none
      | none => none)))).flatten

/-- Alternating row fill (converter.py lines 787–794): every non-header row
without an explicit cell background is filled white (odd index) or light
gray `F8F9FA` (even index). -/
def altRowCmds (cellStyles : List (List CellStyle)) : List Cmd :=
  (List.range' 1 (cellStyles.length - 1)).filterMap (fun r =>
    if (cellStyles.getD r []).any (fun s => s.bg.isSome) then none
    else some (Cmd.bgRow r
      (if r % 2 = 1 then RLColor.white else RLColor.hex "F8F9FA")))

/-- All styling commands of one emitted table (base grid/padding commands
omitted; they carry no colors). -/
def tableStyleCmds (cellStyles : List (List CellStyle)) : List Cmd :=
  headerCmds cellStyles ++ cellBgCmds cellStyles ++ altRowCmds cellStyles

/-! ### converter.py `pdf_to_excel` (lines 451–530) -/

/-- A worksheet: title plus `(row, column, value)` cells (only the cells the
claims inspect are modelled). -/
structure Sheet where
  title : String
  cells : List (ℕ × ℕ × String)
deriving DecidableEq, Repr

/-- The worksheet built for one extracted table (converter.py lines
477–508): title `Page{n}_T{i}` when the page has several tables, else
`Page{n}`, truncated to 31 characters; an info cell in row 1, the header row
in row 3 and data rows from row 4. -/
def sheetForTable (pageNum tIdx : ℕ) (multi : Bool) (table : List (List (Option String))) :
    Sheet :=
  let name := if multi then "Page" ++ toString pageNum ++ "_T" ++ toString tIdx
              else "Page" ++ toString pageNum
  let info : ℕ × ℕ × String :=
    (1, 1, "Source: Page " ++ toString pageNum ++ ", Table " ++ toString tIdx)
  let rows := table.enum.map (fun p =>
    p.2.enum.map (fun q => (3 + p.1, q.1 + 1, (q.2.getD ""))))
  ⟨name.take 31, info :: rows.flatten⟩

/-- The sheet emitted when no table was detected (converter.py lines
523–527). -/
def noTablesSheet : Sheet :=
  ⟨"No Tables Found", [(1, 1, "No tables were detected in the PDF file.")]⟩

/-- Total number of tables extracted over all pages (`table_count`). -/
def pdfTableCount (pages : List (List (List (List (Option String))))) : ℕ :=
  (pages.map List.length).sum

/-- The per-table worksheets appended while scanning the pages. -/
def pdfTableSheets (pages : List (List (List (List (Option String))))) :
    List Sheet :=
  (pages.enum.map (fun p =>
    p.2.enum.map (fun q =>
      sheetForTable (p.1 + 1) (q.1 + 1) (p.2.length > 1) q.2))).flatten

/-- `pdf_to_excel` (converter.py): the workbook starts empty (the default
sheet is removed, line 458), one sheet is appended per extracted table, and
when no table was found at all the `No Tables Found` sheet is appended
instead; the function then saves and reports success unconditionally. -/
def pdfToExcelSheets (pages : List (List (List (List (Option String))))) :
    List Sheet :=
  if pdfTableCount pages = 0 then [noTablesSheet] else pdfTableSheets pages

/-! ## Ordering of merged page content -/

/-- Rank of a content kind in the order the source appends them to
`all_content`: text blocks first, then tables, then images. -/
def contentRank : CType → ℕ
  | CType.text => 0
  | CType.table => 1
  | CType.image => 2

/-- The ordering the merged sequence satisfies: ascending `y_position`, and
on exact ties the append rank is nondecreasing (a consequence of sort
stability). -/
def yOrd (a b : Content) : Prop :=
  a.y ≤ b.y ∧ (a.y = b.y → contentRank a.ctype ≤ contentRank b.ctype)

/-- The tie discipline of the unsorted input: whenever two entries share a
`y_position`, the earlier one has the smaller append rank. -/
def tieOrd (a b : Content) : Prop :=
  a.y = b.y → contentRank a.ctype ≤ contentRank b.ctype

theorem mem_insertAsc {l : List Content} {x a : Content} :
    a ∈ insertAsc l x ↔ a ∈ l ∨ a = x := by
  induction l with
  | nil => simp [insertAsc]
  | cons y ys ih =>
    unfold insertAsc
    by_cases h : y.y ≤ x.y
    · simp only [if_pos h, List.mem_cons, ih]
      tauto
    · simp only [if_neg h, List.mem_cons]
      tauto

theorem insertAsc_pairwise {l : List Content} {x : Content}
    (hl : l.Pairwise yOrd)
    (hle : ∀ a ∈ l, a.y ≤ x.y → yOrd a x)
    (hgt : ∀ a ∈ l, x.y < a.y → yOrd x a) :
    (insertAsc l x).Pairwise yOrd := by
  induction l with
  | nil => simp [insertAsc]
  | cons y ys ih =>
    rcases List.pairwise_cons.mp hl with ⟨hy, hys⟩
    unfold insertAsc
    by_cases h : y.y ≤ x.y
    · rw [if_pos h]
      refine List.pairwise_cons.mpr ⟨?_, ?_⟩
      · intro z hz
        rcases mem_insertAsc.mp hz with hz | rfl
        · exact hy z hz
        · exact hle y (List.mem_cons_self y ys) h
      · exact ih hys (fun a ha hay => hle a (List.mem_cons_of_mem y ha) hay)
          (fun a ha hay => hgt a (List.mem_cons_of_mem y ha) hay)
    · rw [if_neg h]
      refine List.pairwise_cons.mpr ⟨?_, List.pairwise_cons.mpr ⟨hy, hys⟩⟩
      intro z hz
      rcases List.mem_cons.mp hz with rfl | hz
      · exact hgt z (List.mem_cons_self z ys) (lt_of_not_le h)
      · have hyz : y.y ≤ z.y := (hy z hz).1
        exact hgt z (List.mem_cons_of_mem y hz)
          (lt_of_lt_of_le (lt_of_not_le h) hyz)

theorem foldl_insertAsc_mem {rest acc : List Content} {a : Content} :
    a ∈ List.foldl insertAsc acc rest ↔ a ∈ acc ∨ a ∈ rest := by
  induction rest generalizing acc with
  | nil => simp
  | cons x rs ih =>
    simp only [List.foldl_cons, ih, mem_insertAsc, List.mem_cons]
    tauto

theorem foldl_insertAsc_pairwise {rest acc : List Content}
    (hacc : acc.Pairwise yOrd)
    (hrest : rest.Pairwise tieOrd)
    (hcross : ∀ a ∈ acc, ∀ b ∈ rest, tieOrd a b) :
    (List.foldl insertAsc acc rest).Pairwise yOrd := by
  induction rest generalizing acc with
  | nil => exact hacc
  | cons x rs ih =>
    rcases List.pairwise_cons.mp hrest with ⟨hx, hrs⟩
    refine ih ?_ hrs ?_
    · refine insertAsc_pairwise hacc ?_ ?_
      · intro a ha hay
        exact ⟨hay, fun he => hcross a ha x (List.mem_cons_self x rs) he⟩
      · intro a ha hay
        exact ⟨le_of_lt hay, fun he => absurd he (ne_of_lt hay)⟩
    · intro a ha b hb
      rcases mem_insertAsc.mp ha with ha | rfl
      · exact hcross a ha b (List.mem_cons_of_mem x hb)
      · exact hx b hb

theorem pySortByY_pairwise {l : List Content} (hl : l.Pairwise tieOrd) :
    (pySortByY l).Pairwise yOrd :=
  foldl_insertAsc_pairwise List.Pairwise.nil hl (by intro a ha; cases ha)

theorem mem_pySortByY {l : List Content} {a : Content} :
    a ∈ pySortByY l ↔ a ∈ l := by
  unfold pySortByY
  rw [foldl_insertAsc_mem]
  simp

theorem pairwise_of_rel_all {α : Type} {R : α → α → Prop}
    (h : ∀ a b, R a b) : ∀ l : List α, l.Pairwise R := by
  intro l
  induction l with
  | nil => exact List.Pairwise.nil
  | cons x xs ih => exact List.Pairwise.cons (fun y _ => h x y) ih

theorem rank_of_mem_text {texts : List TextBlock} {a : Content}
    (ha : a ∈ texts.map textContent) : contentRank a.ctype = 0 := by
  rcases List.mem_map.mp ha with ⟨b, _, rfl⟩; rfl

theorem rank_of_mem_table {tables : List TableCand} {a : Content}
    (ha : a ∈ tables.map tableContent) : contentRank a.ctype = 1 := by
  rcases List.mem_map.mp ha with ⟨b, _, rfl⟩; rfl

theorem rank_of_mem_image {images : List ImageEl} {a : Content}
    (ha : a ∈ images.map imageContent) : contentRank a.ctype = 2 := by
  rcases List.mem_map.mp ha with ⟨b, _, rfl⟩; rfl

theorem input_tieOrd (texts : List TextBlock) (tables : List TableCand)
    (images : List ImageEl) :
    (texts.map textContent ++ tables.map tableContent ++
      images.map imageContent).Pairwise tieOrd := by
  refine List.pairwise_append.mpr ⟨List.pairwise_append.mpr ⟨?_, ?_, ?_⟩, ?_, ?_⟩
  · exact (List.pairwise_map).mpr
      (pairwise_of_rel_all (fun a b _ => le_refl _) texts)
  · exact (List.pairwise_map).mpr
      (pairwise_of_rel_all (fun a b _ => le_refl _) tables)
  · intro a ha b hb _
    rw [rank_of_mem_text ha]
    exact Nat.zero_le _
  · exact (List.pairwise_map).mpr
      (pairwise_of_rel_all (fun a b _ => le_refl _) images)
  · intro a ha b hb _
    rw [rank_of_mem_image hb]
    rcases List.mem_append.mp ha with ha | ha
    · rw [rank_of_mem_text ha]; exact Nat.zero_le _
    · rw [rank_of_mem_table ha]; omega

/-- Acceptance of a table candidate, restated without rational division:
at least 2 rows, at least 4 cells, and `filled/total ≥ 3/10` as the
cross-multiplied inequality. -/
theorem acceptTable_iff (t : TableCand) :
    acceptTable t = true ↔
      2 ≤ t.data.length ∧ 4 ≤ totalCount t.data ∧
        3 * totalCount t.data ≤ 10 * filledCount t.data := by
  unfold acceptTable
  simp only [Bool.and_eq_true, Bool.not_eq_true', decide_eq_false_iff_not, not_lt,
    Bool.or_eq_false_iff]
  constructor
  · rintro ⟨h1, h2, h3⟩
    refine ⟨h1, h2, ?_⟩
    have htq : (0 : ℚ) < (totalCount t.data : ℚ) := by
      have h0 : 0 < totalCount t.data := by omega
      exact_mod_cast h0
    rw [div_le_div_iff₀ (by norm_num) htq] at h3
    have hq : (3 : ℚ) * (totalCount t.data : ℚ) ≤
        10 * (filledCount t.data : ℚ) := by linarith
    exact_mod_cast hq
  · rintro ⟨h1, h2, h3⟩
    refine ⟨h1, h2, ?_⟩
    have htq : (0 : ℚ) < (totalCount t.data : ℚ) := by
      have h0 : 0 < totalCount t.data := by omega
      exact_mod_cast h0
    rw [div_le_div_iff₀ (by norm_num) htq]
    have hq : (3 : ℚ) * (totalCount t.data : ℚ) ≤
        10 * (filledCount t.data : ℚ) := by exact_mod_cast h3
    linarith

/-- The rejection form of `acceptTable_iff`. -/
theorem acceptTable_eq_false_iff (t : TableCand) :
    acceptTable t = false ↔
      ¬(2 ≤ t.data.length ∧ 4 ≤ totalCount t.data ∧
        3 * totalCount t.data ≤ 10 * filledCount t.data) := by
  rw [← acceptTable_iff]
  cases acceptTable t <;> simp

/-! ## Claim C2 -/

/-- The tie text block of the C2 counterexample: `y0 = 10`, to the left of
the table. -/
def tieBlock : TextBlock := ⟨⟨0, 10, 5, 12⟩, "tie text"⟩

/-- The tie table of the C2 counterexample: accepted 2×2 table, also at
`y0 = 10`, not overlapping `tieBlock`. -/
def tieTable : TableCand :=
  ⟨⟨100, 10, 200, 50⟩, [[some "A", some "B"], [some "C", some "D"]]⟩

/-- C2 counterexample: with a text block and an accepted, non-overlapping
table that share `y0 = 10`, the emitted sequence puts the text block FIRST —
refuting the claim that tables and images appear before text blocks when
`y0` ties, since the source appends text blocks to `all_content` first and
Python's sort is stable. -/
theorem c2_counterexample :
    tieBlock.bbox.y0 = tieTable.bbox.y0 ∧
    acceptTable tieTable = true ∧
    overlapsBB tieBlock.bbox tieTable.bbox = false ∧
    (reconstructPage [tieBlock] [tieTable] []).map Content.ctype =
      [CType.text, CType.table] := by
  have hacc : acceptTable tieTable = true := by
    rw [acceptTable_iff]
    refine ⟨by decide, by decide, by decide⟩
  have hfil : [tieTable].filter acceptTable = [tieTable] := by
    rw [List.filter_cons_of_pos hacc]
    rfl
  refine ⟨rfl, hacc, by decide, ?_⟩
  simp only [reconstructPage]
  rw [hfil]
  rfl

/-- C2 (amended): the merged per-page sequence is sorted ascending by
`boundingBox.y0`, and on exactly equal `y0` the elements keep the order in
which the source appended them — text blocks before tables before images
(not tables and images before text). -/
theorem c2_merged_order (blocks : List TextBlock) (rawTables : List TableCand)
    (images : List ImageEl) :
    (reconstructPage blocks rawTables images).Pairwise yOrd := by
  unfold reconstructPage
  exact pySortByY_pairwise (input_tieOrd _ _ _)

/-! ## Claim C4 -/

/-- C4: during PDF→HTML reconstruction a span's heading tag is chosen by the
fixed thresholds of converter.py lines 1980–1987: size above 20pt gives
`h1`, above 16 gives `h2`, above 14 gives `h3`, anything else is body text
(a plain `span`). -/
theorem c4_heading_thresholds (s : ℚ) :
    (20 < s → tagFor s = "h1") ∧
    (16 < s → s ≤ 20 → tagFor s = "h2") ∧
    (14 < s → s ≤ 16 → tagFor s = "h3") ∧
    (s ≤ 14 → tagFor s = "span") := by
  refine ⟨fun h => ?_, fun h h2 => ?_, fun h h2 => ?_, fun h => ?_⟩
  · unfold tagFor
    rw [if_pos h]
  · unfold tagFor
    rw [if_neg (not_lt.mpr h2), if_pos h]
  · unfold tagFor
    rw [if_neg (not_lt.mpr (by linarith)), if_neg (not_lt.mpr h2), if_pos h]
  · unfold tagFor
    rw [if_neg (not_lt.mpr (by linarith)), if_neg (not_lt.mpr (by linarith)),
      if_neg (not_lt.mpr h)]

/-- Witness for C4 at concrete sizes 22, 18, 15 and 12. -/
theorem c4_heading_thresholds_witness :
    tagFor 22 = "h1" ∧ tagFor 18 = "h2" ∧ tagFor 15 = "h3" ∧
      tagFor 12 = "span" :=
  ⟨(c4_heading_thresholds 22).1 (by norm_num),
   (c4_heading_thresholds 18).2.1 (by norm_num) (by norm_num),
   (c4_heading_thresholds 15).2.2.1 (by norm_num) (by norm_num),
   (c4_heading_thresholds 12).2.2.2 (by norm_num)⟩

/-! ## Claim C8 -/

/-- C8: paginated emitters pick orientation/size from content shape: more
than 15 columns sends converter.py's `excel_to_pdf` to landscape A3 (the
larger paper tier), more than 8 columns sends converter_lite's
`excel_to_pdf` and converter.py's `html_to_pdf` (word-like table content) to
landscape letter; in particular an 18-column sheet gets landscape A3, which
is strictly larger than letter. -/
theorem c8_page_orientation :
    (∀ (mc : ℕ) (w : ℚ), 15 < mc → excelPagesize mc w = ⟨Paper.a3, true⟩) ∧
    (∀ mc : ℕ, 8 < mc → liteExcelPagesize mc = ⟨Paper.letter, true⟩) ∧
    (∀ ws : List ℕ, (∃ w ∈ ws, 8 < w) →
      htmlPagesize ws = ⟨Paper.letter, true⟩) ∧
    (∀ w : ℚ, excelPagesize 18 w = ⟨Paper.a3, true⟩) ∧
    ((pageWH ⟨Paper.a3, true⟩).1 > (pageWH ⟨Paper.a3, true⟩).2 ∧
      (pageWH ⟨Paper.letter, true⟩).1 > (pageWH ⟨Paper.letter, true⟩).2 ∧
      (pageWH ⟨Paper.letter, false⟩).1 < (pageWH ⟨Paper.letter, false⟩).2) ∧
    ((paperDims Paper.a3).1 * (paperDims Paper.a3).2 >
      (paperDims Paper.letter).1 * (paperDims Paper.letter).2) := by
  refine ⟨?_, ?_, ?_, ?_, ?_, ?_⟩
  · intro mc w h
    unfold excelPagesize
    rw [if_pos (Or.inl h)]
  · intro mc h
    unfold liteExcelPagesize
    rw [if_pos h]
  · intro ws hw
    have hany : ws.any (fun w => w > 8) = true := by
      rcases hw with ⟨w, hmem, h8⟩
      exact List.any_eq_true.mpr ⟨w, hmem, by simpa using h8⟩
    simp [htmlPagesize, hany]
  · intro w
    unfold excelPagesize
    rw [if_pos (Or.inl (by norm_num))]
  · refine ⟨by norm_num [pageWH, paperDims], by norm_num [pageWH, paperDims],
      by norm_num [pageWH, paperDims]⟩
  · norm_num [paperDims]

/-- Witness for C8 at 18 spreadsheet columns, 9 lite columns and a 10-wide
HTML table. -/
theorem c8_page_orientation_witness :
    excelPagesize 18 0 = ⟨Paper.a3, true⟩ ∧
    liteExcelPagesize 9 = ⟨Paper.letter, true⟩ ∧
    htmlPagesize [10] = ⟨Paper.letter, true⟩ :=
  ⟨c8_page_orientation.1 18 0 (by norm_num),
   c8_page_orientation.2.1 9 (by norm_num),
   c8_page_orientation.2.2.1 [10] ⟨10, by simp, by norm_num⟩⟩

/-! ## Claim C9 -/

theorem liteLimitRows_spec {α : Type} (rest : List α) :
    ∀ acc : List α, acc.length < 100 →
      liteLimitRows acc rest = acc.reverse ++ rest.take (100 - acc.length) := by
  induction rest with
  | nil => intro acc _; simp [liteLimitRows]
  | cons r rs ih =>
    intro acc h
    unfold liteLimitRows
    by_cases h2 : (r :: acc).length ≥ 100
    · rw [if_pos h2]
      have h99 : acc.length = 99 := by
        simp only [List.length_cons] at h2
        omega
      rw [show 100 - acc.length = 1 by omega]
      simp
    · rw [if_neg h2]
      have hlt : (r :: acc).length < 100 := by omega
      rw [ih _ hlt]
      rw [show 100 - acc.length = (100 - (r :: acc).length) + 1 by
        simp only [List.length_cons]; omega]
      simp [List.take_succ_cons]

/-- C9 counterexample: a sheet whose data spans rows 1–600 makes
converter.py's `excel_to_pdf` iterate 501 rows — more than any cap in the
claimed 100–500 range. -/
theorem c9_counterexample :
    excelRowWindow 1 600 = 501 ∧ ¬(excelRowWindow 1 600 ≤ 500) := by
  constructor <;> decide

/-- C9 (amended): output is row-capped and truncation is silent, but the
caps are 100 rows per sheet in converter_lite's `excel_to_pdf` and 501 rows
(the first data row plus up to 500 more) in converter.py's `excel_to_pdf`;
the latter lies just outside the claimed 100–500 range. -/
theorem c9_row_caps :
    (∀ rows : List (List String),
      liteRows rows = rows.take 100 ∧ (liteRows rows).length ≤ 100) ∧
    (∀ minRow maxRow : ℕ, minRow ≤ maxRow →
      excelRowWindow minRow maxRow = min (maxRow - minRow + 1) 501 ∧
      excelRowWindow minRow maxRow ≤ 501) := by
  constructor
  · intro rows
    have h : liteRows rows = rows.take 100 := by
      unfold liteRows
      rw [liteLimitRows_spec rows [] (by norm_num)]
      simp
    refine ⟨h, ?_⟩
    rw [h]
    simp
  · intro minRow maxRow h
    unfold excelRowWindow
    omega

/-- Witness for C9 on a 150-row sheet (lite) and a sheet spanning rows
1–600 (converter.py). -/
theorem c9_row_caps_witness :
    liteRows (List.replicate 150 ([] : List String)) =
      (List.replicate 150 ([] : List String)).take 100 ∧
    excelRowWindow 1 600 = min 600 501 :=
  ⟨(c9_row_caps.1 (List.replicate 150 [])).1,
   (c9_row_caps.2 1 600 (by norm_num)).1⟩

/-! ## Claim C1 -/

/-- The accepted 2×2 table of the C1 scenario (all four cells filled). -/
def scTable : TableCand :=
  ⟨⟨100, 100, 300, 200⟩, [[some "A", some "B"], [some "C", some "D"]]⟩

/-- A text block inside the scenario table's bounding box. -/
def scIn1 : TextBlock := ⟨⟨110, 110, 150, 120⟩, "in one"⟩

/-- A second text block inside the scenario table's bounding box. -/
def scIn2 : TextBlock := ⟨⟨160, 110, 200, 120⟩, "in two"⟩

/-- A third text block inside the scenario table's bounding box. -/
def scIn3 : TextBlock := ⟨⟨110, 150, 150, 160⟩, "in three"⟩

/-- A text block above the scenario table. -/
def scOut1 : TextBlock := ⟨⟨100, 20, 300, 40⟩, "header text"⟩

/-- A text block below the scenario table. -/
def scOut2 : TextBlock := ⟨⟨100, 300, 300, 320⟩, "footer text"⟩

/-- The five text blocks of the C1 scenario. -/
def scBlocks : List TextBlock := [scIn1, scIn2, scIn3, scOut1, scOut2]

/-- C1: a text block whose bounding box overlaps an accepted table's
bounding box is excluded from the reconstructed free text, and every text
element of the merged page comes from a surviving (non-overlapping) block,
so suppressed text reaches the output only through the table element; in
the concrete scenario — three blocks overlapping an accepted 2×2 table plus
two blocks outside it — the reconstructed page holds exactly 1 table
element and exactly 2 text elements. -/
theorem c1_table_suppression
    (blocks : List TextBlock) (rawTables : List TableCand)
    (images : List ImageEl) (b : TextBlock) (_hb : b ∈ blocks)
    (hov : ∃ t ∈ rawTables.filter acceptTable,
      overlapsBB b.bbox t.bbox = true) :
    b ∉ freeTextBlocks blocks (rawTables.filter acceptTable) ∧
    (∀ c ∈ reconstructPage blocks rawTables images, c.ctype = CType.text →
      ∃ b2 ∈ freeTextBlocks blocks (rawTables.filter acceptTable),
        c = textContent b2) ∧
    ((reconstructPage scBlocks [scTable] []).countP
        (fun c => c.ctype = CType.table) = 1 ∧
      (reconstructPage scBlocks [scTable] []).countP
        (fun c => c.ctype = CType.text) = 2 ∧
      (reconstructPage scBlocks [scTable] []).length = 3) := by
  refine ⟨?_, ?_, ?_⟩
  · intro hmem
    have hpred := List.of_mem_filter hmem
    rw [Bool.not_eq_true'] at hpred
    rcases hov with ⟨t, ht, hovt⟩
    have : (rawTables.filter acceptTable).any
        (fun t => overlapsBB b.bbox t.bbox) = true :=
      List.any_eq_true.mpr ⟨t, ht, hovt⟩
    rw [hpred] at this
    cases this
  · intro c hc hct
    simp only [reconstructPage] at hc
    rw [mem_pySortByY] at hc
    rcases List.mem_append.mp hc with hc | hc
    · rcases List.mem_append.mp hc with hc | hc
      · rcases List.mem_map.mp hc with ⟨b2, hb2, rfl⟩
        exact ⟨b2, hb2, rfl⟩
      · rcases List.mem_map.mp hc with ⟨t2, _, rfl⟩
        simp [tableContent] at hct
    · rcases List.mem_map.mp hc with ⟨i2, _, rfl⟩
      simp [imageContent] at hct
  · have hacc : acceptTable scTable = true := by
      rw [acceptTable_iff]
      exact ⟨by decide, by decide, by decide⟩
    have hfil : [scTable].filter acceptTable = [scTable] := by
      rw [List.filter_cons_of_pos hacc]
      rfl
    refine ⟨?_, ?_, ?_⟩ <;>
      · simp only [reconstructPage]
        rw [hfil]
        rfl

/-- Witness for C1: the first in-table block of the scenario is suppressed
from free text. -/
theorem c1_table_suppression_witness :
    scIn1 ∉ freeTextBlocks scBlocks ([scTable].filter acceptTable) := by
  have hacc : acceptTable scTable = true := by
    rw [acceptTable_iff]
    exact ⟨by decide, by decide, by decide⟩
  have hov : ∃ t ∈ [scTable].filter acceptTable,
      overlapsBB scIn1.bbox t.bbox = true :=
    ⟨scTable, by rw [List.filter_cons_of_pos hacc]; exact List.mem_cons_self _ _,
      by decide⟩
  exact (c1_table_suppression scBlocks [scTable] [] scIn1 (by decide) hov).1

/-! ## Claim C6 -/

/-- The rejected candidate of Scenario 5: a 3-row, 4-column grid with 3 of
12 cells filled (fill ratio 25%, below the 30% threshold; an exact 20%
ratio is not realizable on a 12-cell grid). -/
def lowFillTable : TableCand :=
  ⟨⟨0, 0, 10, 10⟩,
    [[some "a", none, none, none],
     [none, some "b", none, none],
     [none, none, some "c", none]]⟩

/-- C6: a candidate with fewer than 2 rows or a fill ratio below 30% is
rejected at extraction time (converter.py lines 1880–1894), hence never
reaches `tables_data` and is never emitted as a table; consequently a text
block that overlaps only rejected candidates survives the suppression
filter and its text stays in the free-text output. -/
theorem c6_table_rejection (t : TableCand)
    (h : t.data.length < 2 ∨
      (filledCount t.data : ℚ) / (totalCount t.data : ℚ) < 3 / 10) :
    acceptTable t = false ∧
    (∀ rawTables : List TableCand, t ∉ rawTables.filter acceptTable) ∧
    (∀ (blocks : List TextBlock) (rawTables : List TableCand) (b : TextBlock),
      b ∈ blocks →
      (∀ t2 ∈ rawTables, overlapsBB b.bbox t2.bbox = true →
        acceptTable t2 = false) →
      b ∈ freeTextBlocks blocks (rawTables.filter acceptTable)) := by
  have hfalse : acceptTable t = false := by
    rw [acceptTable_eq_false_iff]
    rintro ⟨h1, h2, h3⟩
    rcases h with h | h
    · omega
    · have htq : (0 : ℚ) < (totalCount t.data : ℚ) := by
        have h0 : 0 < totalCount t.data := by omega
        exact_mod_cast h0
      rw [div_lt_div_iff₀ htq (by norm_num)] at h
      have hq : (3 : ℚ) * (totalCount t.data : ℚ) ≤
          10 * (filledCount t.data : ℚ) := by exact_mod_cast h3
      linarith
  refine ⟨hfalse, ?_, ?_⟩
  · intro rt hmem
    have := List.of_mem_filter hmem
    rw [hfalse] at this
    cases this
  · intro blocks rt b hb hall
    refine List.mem_filter.mpr ⟨hb, ?_⟩
    rw [Bool.not_eq_true']
    by_contra hx
    have hx2 : (rt.filter acceptTable).any
        (fun t2 => overlapsBB b.bbox t2.bbox) = true :=
      Bool.ne_false_iff.mp hx
    rcases List.any_eq_true.mp hx2 with ⟨t2, ht2, hov2⟩
    have hmem2 := List.mem_of_mem_filter ht2
    have hacc2 := List.of_mem_filter ht2
    rw [hall t2 hmem2 hov2] at hacc2
    cases hacc2

/-- Witness for C6 on the 3×4, 25%-filled grid. -/
theorem c6_table_rejection_witness : acceptTable lowFillTable = false :=
  (c6_table_rejection lowFillTable
    (Or.inr (by norm_num [show filledCount lowFillTable.data = 3 from rfl,
      show totalCount lowFillTable.data = 12 from rfl]))).1

/-! ## Claim C10 -/

/-- C10: when no table is detected on any page, `pdf_to_excel` still
produces a workbook — exactly one worksheet (the default sheet having been
removed at the start), titled `No Tables Found`, whose first cell holds the
message `No tables were detected in the PDF file.` — and the function
reaches its unconditional save-and-report-success tail. -/
theorem c10_no_tables (pages : List (List (List (List (Option String)))))
    (h : ∀ p ∈ pages, p = []) :
    pdfToExcelSheets pages = [noTablesSheet] ∧
    (pdfToExcelSheets pages).length = 1 ∧
    noTablesSheet.title = "No Tables Found" ∧
    noTablesSheet.cells =
      [(1, 1, "No tables were detected in the PDF file.")] := by
  have hcount : pdfTableCount pages = 0 := by
    apply List.sum_eq_zero
    intro x hx
    rcases List.mem_map.mp hx with ⟨p, hp, rfl⟩
    rw [h p hp]
    rfl
  have hmain : pdfToExcelSheets pages = [noTablesSheet] := by
    unfold pdfToExcelSheets
    rw [if_pos hcount]
  refine ⟨hmain, by rw [hmain]; rfl, rfl, rfl⟩

/-- Witness for C10 on a two-page PDF with no tables. -/
theorem c10_no_tables_witness :
    pdfToExcelSheets [[], []] = [noTablesSheet] :=
  (c10_no_tables [[], []] (by intro p hp; simp at hp; exact hp)).1

/-! ## Claim C3 -/

/-- C3 counterexample: a span with font `Arial` at 16pt. converter_lite
classifies it bold (size above 14), as the claim predicts, but
converter.py's `pdf_to_html` span formatter consults only the font name and
emits no `<strong>` wrapping — so the claimed classification does not hold
uniformly wherever PDF spans are styled. -/
theorem c3_counterexample :
    "bold" ∈ liteStyleClasses "Arial" 16 ∧
    strContains (pyLower "Arial") "bold" = false ∧ (16 : ℚ) > 14 ∧
    applyFormatting (htmlEscape "Hi") (pyLower "Arial") = "Hi" ∧
    strContains (applyFormatting (htmlEscape "Hi") (pyLower "Arial"))
      "strong" = false := by
  decide

/-- C3 (amended): converter_lite's character classifier marks bold exactly
when the lowercased font name contains "bold" or the size exceeds 14pt, and
italic exactly for "italic"/"oblique" font names; converter.py's
`pdf_to_html` span formatter instead wraps in `<strong>` exactly when the
font name contains "bold" (the font size plays no role there) and in `<em>`
exactly for "italic"/"oblique" — the wrapping is captured by the length
growth of 17 (`<strong></strong>`) and 9 (`<em></em>`) characters. -/
theorem c3_style_classifier (fontname : String) (s : ℚ) (escaped : String) :
    ("bold" ∈ liteStyleClasses fontname s ↔
      strContains (pyLower fontname) "bold" = true ∨ s > 14) ∧
    ("italic" ∈ liteStyleClasses fontname s ↔
      strContains (pyLower fontname) "italic" = true ∨
        strContains (pyLower fontname) "oblique" = true) ∧
    ((applyFormatting escaped (pyLower fontname)).length =
      escaped.length +
        (if strContains (pyLower fontname) "bold" = true then 17 else 0) +
        (if strContains (pyLower fontname) "italic" = true ∨
            strContains (pyLower fontname) "oblique" = true then 9 else 0)) := by
  refine ⟨?_, ?_, ?_⟩
  · simp only [liteStyleClasses]
    split_ifs <;> simp_all
  · simp only [liteStyleClasses]
    split_ifs <;> simp_all
  · unfold applyFormatting
    split_ifs <;>
      simp_all [String.length_append,
        show ("<strong>" : String).length = 8 from rfl,
        show ("</strong>" : String).length = 9 from rfl,
        show ("<em>" : String).length = 4 from rfl,
        show ("</em>" : String).length = 5 from rfl] <;>
      omega

/-! ## Claim C5 -/

/-- C5 counterexample: the line "123456. Item" begins with one or more
digits followed by a period, yet converter.py renders it as a plain span,
not a list item — the source requires the period to occur within the first
five characters (`'.' in text[:5]`). -/
theorem c5_counterexample :
    ("123456. Item".toList.takeWhile Char.isDigit).length = 6 ∧
    "123456. Item".toList.getD 6 ' ' = '.' ∧
    processLine [⟨"123456. Item", "arial", 12, 0⟩] =
      "<span>123456. Item</span> " ∧
    strContains (processLine [⟨"123456. Item", "arial", 12, 0⟩])
      "<li>" = false := by
  decide

/-- C5 (amended): a line whose first non-space character is a bullet glyph
from {•,-,*,●,○,▪,◆} becomes a list item with all leading glyphs and spaces
stripped (rendered unordered when it stands alone, as in Scenario 3); a
line whose first character is a digit becomes an ordered-style list item
with everything up to the first period stripped ONLY when a period occurs
within the line's first five characters. -/
theorem c5_list_detection :
    (∀ (sp : Span) (rest : List Span) (acc : String),
      pyStrip sp.text ≠ "" → bulletStart (pyStrip sp.text) = true →
      processSpans acc (sp :: rest) =
        "<li>" ++ pyLstrip bulletLstripChars
          (applyFormatting (htmlEscape (pyStrip sp.text)) (pyLower sp.font)) ++
          "</li>") ∧
    (∀ (sp : Span) (rest : List Span) (acc : String),
      pyStrip sp.text ≠ "" → bulletStart (pyStrip sp.text) = false →
      numberedStart (pyStrip sp.text) = true →
      processSpans acc (sp :: rest) =
        "<li>" ++ htmlEscape (numberedClean (pyStrip sp.text)) ++ "</li>") ∧
    (processLine [⟨"• Item one", "arial", 12, 0⟩] = "<li>Item one</li>" ∧
      wrapTextHtml (blockHtml [[⟨"• Item one", "arial", 12, 0⟩]]) =
        "<ul>\n<li>Item one</li>\n</ul>\n") := by
  refine ⟨?_, ?_, by constructor <;> rfl⟩
  · intro sp rest acc h1 h2
    simp only [processSpans]
    rw [if_neg h1, if_pos h2]
  · intro sp rest acc h1 h2 h3
    simp only [processSpans]
    rw [if_neg h1, if_neg ?_, if_pos h3]
    rw [h2]
    exact Bool.false_ne_true

/-- Witness for C5 on the bullet line "• Item one" and the numbered line
"1. Step". -/
theorem c5_list_detection_witness :
    processSpans "" [⟨"• Item one", "arial", 12, 0⟩] =
      "<li>" ++ pyLstrip bulletLstripChars
        (applyFormatting (htmlEscape (pyStrip "• Item one"))
          (pyLower "arial")) ++ "</li>" ∧
    processSpans "" [⟨"1. Step", "arial", 12, 0⟩] =
      "<li>" ++ htmlEscape (numberedClean (pyStrip "1. Step")) ++ "</li>" :=
  ⟨c5_list_detection.1 ⟨"• Item one", "arial", 12, 0⟩ [] ""
      (by decide) (by decide),
    c5_list_detection.2.1 ⟨"1. Step", "arial", 12, 0⟩ [] ""
      (by decide) (by decide) (by decide)⟩

/-! ## Claim C7 -/

theorem headerCmds_shape {cs : List (List CellStyle)} {c : Cmd}
    (hc : c ∈ headerCmds cs) :
    (∃ col, c = Cmd.bgHeader col) ∨
      c = Cmd.textColorHeader RLColor.whitesmoke ∨ c = Cmd.fontHeader := by
  simp only [headerCmds] at hc
  split_ifs at hc with h
  · rcases List.mem_cons.mp hc with rfl | hc
    · exact Or.inl ⟨_, rfl⟩
    rcases List.mem_cons.mp hc with rfl | hc
    · exact Or.inr (Or.inl rfl)
    rcases List.mem_cons.mp hc with rfl | hc
    · exact Or.inr (Or.inr rfl)
    cases hc
  · cases hc

theorem cellBgCmds_shape {cs : List (List CellStyle)} {c : Cmd}
    (hc : c ∈ cellBgCmds cs) :
    ∃ col row colr, c = Cmd.bgCell col row colr := by
  unfold cellBgCmds at hc
  rcases List.mem_flatten.mp hc with ⟨l, hl, hcl⟩
  rcases List.mem_map.mp hl with ⟨p, _, rfl⟩
  rcases List.mem_filterMap.mp hcl with ⟨q, _, hfq⟩
  rcases hbg : q.2.bg with _ | colr
  · rw [hbg] at hfq
    cases hfq
  · rw [hbg] at hfq
    split_ifs at hfq with h
    exact ⟨q.1, p.1, colr, (Option.some.inj hfq).symm⟩

theorem altRowCmds_shape {cs : List (List CellStyle)} {c : Cmd}
    (hc : c ∈ altRowCmds cs) :
    ∃ r, c = Cmd.bgRow r
        (if r % 2 = 1 then RLColor.white else RLColor.hex "F8F9FA") ∧
      1 ≤ r ∧ r < cs.length ∧
      (cs.getD r []).any (fun s => s.bg.isSome) = false := by
  unfold altRowCmds at hc
  rcases List.mem_filterMap.mp hc with ⟨r, hr, hfr⟩
  rw [List.mem_range'_1] at hr
  by_cases h : ((cs.getD r []).any fun s => s.bg.isSome) = true
  · rw [if_pos h] at hfr
    cases hfr
  · rw [if_neg h] at hfr
    exact ⟨r, (Option.some.inj hfr).symm, hr.1, by omega,
      Bool.eq_false_iff.mpr h⟩

theorem altRowCmds_mem {cs : List (List CellStyle)} {r : ℕ}
    (h1 : 1 ≤ r) (h2 : r < cs.length)
    (h3 : (cs.getD r []).any (fun s => s.bg.isSome) = false) :
    Cmd.bgRow r (if r % 2 = 1 then RLColor.white else RLColor.hex "F8F9FA") ∈
      altRowCmds cs := by
  unfold altRowCmds
  refine List.mem_filterMap.mpr ⟨r, List.mem_range'_1.mpr ⟨h1, by omega⟩, ?_⟩
  rw [if_neg (by rw [h3]; exact Bool.false_ne_true)]

/-- C7 (amended): when the first row has a bold cell or the table has more
than one row, the header row keeps its first explicit (non-white, i.e.
surviving `rgb_to_color`) background instead of the accent default, and
that is the only header background command; a non-header row with any
explicit cell background is skipped by the white/light-gray alternation;
but rows WITHOUT explicit backgrounds are still alternated even when the
header was explicitly styled — explicit header styling does not disable the
alternating fill for the rest of the table. -/
theorem c7_table_styling (cs : List (List CellStyle)) :
    (∀ c0 : RLColor,
      (cs.headD []).findSome? (fun s => s.bg) = some c0 →
      ((cs.headD []).any (fun s => s.bold) = true ∨ 1 < cs.length) →
      Cmd.bgHeader c0 ∈ tableStyleCmds cs ∧
        ∀ c1 : RLColor, Cmd.bgHeader c1 ∈ tableStyleCmds cs → c1 = c0) ∧
    (∀ r : ℕ, 1 ≤ r →
      (cs.getD r []).any (fun s => s.bg.isSome) = true →
      ∀ colr : RLColor, Cmd.bgRow r colr ∉ tableStyleCmds cs) ∧
    (∀ r : ℕ, 1 ≤ r → r < cs.length →
      (cs.getD r []).any (fun s => s.bg.isSome) = false →
      Cmd.bgRow r (if r % 2 = 1 then RLColor.white else RLColor.hex "F8F9FA") ∈
        tableStyleCmds cs) := by
  refine ⟨?_, ?_, ?_⟩
  · intro c0 hfind hcond
    have hhd : headerCmds cs =
        [Cmd.bgHeader c0, Cmd.textColorHeader RLColor.whitesmoke,
          Cmd.fontHeader] := by
      unfold headerCmds
      rw [if_pos hcond, hfind]
    constructor
    · unfold tableStyleCmds
      rw [hhd]
      exact List.mem_append_left _ (List.mem_append_left _
        (List.mem_cons_self _ _))
    · intro c1 hc1
      rcases List.mem_append.mp hc1 with hc1 | hc1
      · rcases List.mem_append.mp hc1 with hc1 | hc1
        · rw [hhd] at hc1
          rcases List.mem_cons.mp hc1 with he | hc1
          · exact (Cmd.bgHeader.inj he).symm ▸ rfl
          rcases List.mem_cons.mp hc1 with he | hc1
          · cases he
          rcases List.mem_cons.mp hc1 with he | hc1
          · cases he
          · cases hc1
        · rcases cellBgCmds_shape hc1 with ⟨_, _, _, he⟩
          cases he
      · rcases altRowCmds_shape hc1 with ⟨_, he, _⟩
        cases he
  · intro r hr hbg colr hmem
    rcases List.mem_append.mp hmem with hc | hc
    · rcases List.mem_append.mp hc with hc | hc
      · rcases headerCmds_shape hc with ⟨_, he⟩ | he | he <;> cases he
      · rcases cellBgCmds_shape hc with ⟨_, _, _, he⟩
        cases he
    · rcases altRowCmds_shape hc with ⟨r2, he, _, _, hfalse⟩
      have hr2 : r2 = r := (Cmd.bgRow.inj he.symm).1
      rw [hr2] at hfalse
      rw [hbg] at hfalse
      cases hfalse
  · intro r h1 h2 h3
    exact List.mem_append_right _ (altRowCmds_mem h1 h2 h3)

/-- The cell-style grid used for the C7 counterexample and witness: an
explicitly red (non-white) bold header row, a plain second row, and a third
row with an explicit green background. -/
def redHeaderStyles : List (List CellStyle) :=
  [[⟨some (RLColor.hex "FF0000"), true⟩],
   [⟨none, false⟩],
   [⟨some (RLColor.hex "00FF00"), false⟩]]

/-- C7 counterexample: with an explicit non-white header background (red,
obtained from the source ARGB value `FFFF0000` through `rgb_to_color`), the
header color is preserved — but the default alternating fill is NOT
disabled for the table: the unstyled second row still receives the
alternating white background, refuting the claim's "the default
alternating-row fill is disabled accordingly". -/
theorem c7_counterexample :
    rgbToColor (some "FFFF0000") = some (RLColor.hex "FF0000") ∧
    Cmd.bgHeader (RLColor.hex "FF0000") ∈ tableStyleCmds redHeaderStyles ∧
    Cmd.bgRow 1 RLColor.white ∈ tableStyleCmds redHeaderStyles := by
  decide

/-- Witness for C7 on `redHeaderStyles`: header color preserved (uniquely),
the explicitly-colored third row skips alternation, the unstyled second row
gets the alternating white fill. -/
theorem c7_table_styling_witness :
    Cmd.bgHeader (RLColor.hex "FF0000") ∈ tableStyleCmds redHeaderStyles ∧
    (∀ colr : RLColor, Cmd.bgRow 2 colr ∉ tableStyleCmds redHeaderStyles) ∧
    Cmd.bgRow 1 RLColor.white ∈ tableStyleCmds redHeaderStyles :=
  ⟨((c7_table_styling redHeaderStyles).1 (RLColor.hex "FF0000") (by decide)
      (Or.inl (by decide))).1,
   (c7_table_styling redHeaderStyles).2.1 2 (by norm_num) (by decide),
   (c7_table_styling redHeaderStyles).2.2 1 (by norm_num) (by decide)
     (by decide)⟩

end UbPdf
